import Mathlib

/-!
# Verification of the code-companion session relay core

Shallow embedding of the TypeScript sources (`src/slack.ts`, `src/rooms.ts`,
`src/server.ts`, `src/tunnel.ts`) together with the library primitives they
rely on (SHA-256 / HMAC-SHA256 from `node:crypto`, UTF-8 / UTF-16 string
semantics of JavaScript), and proofs of the specified properties.
-/

deriving instance DecidableEq for Except

namespace CodeCompanion

/-! ## Byte-level string model

JavaScript strings are sequences of UTF-16 code units; `Buffer.from(s)`
encodes to UTF-8.  We model JS strings as Lean `String` and make both
measures explicit. -/

/-- UTF-16 code units a single code point occupies: code points at or
above `0x10000` take a surrogate pair. -/
def charUnits (c : Char) : Nat := if c.toNat ≥ 0x10000 then 2 else 1

/-- Length of a string counted in UTF-16 code units (JS `String.length`). -/
def utf16Length (s : String) : Nat := (s.data.map charUnits).sum

/-- UTF-8 encoding of a single code point, as a list of byte values. -/
def utf8EncodeChar (c : Char) : List Nat :=
  let n := c.toNat
  if n < 0x80 then [n]
  else if n < 0x800 then
    [0xC0 ||| (n >>> 6), 0x80 ||| (n &&& 0x3F)]
  else if n < 0x10000 then
    [0xE0 ||| (n >>> 12), 0x80 ||| ((n >>> 6) &&& 0x3F), 0x80 ||| (n &&& 0x3F)]
  else
    [0xF0 ||| (n >>> 18), 0x80 ||| ((n >>> 12) &&& 0x3F),
     0x80 ||| ((n >>> 6) &&& 0x3F), 0x80 ||| (n &&& 0x3F)]

/-- UTF-8 encoding of a string as a list of byte values
(the contents of `Buffer.from(s)` in Node). -/
def utf8Bytes (s : String) : List Nat :=
  s.data.flatMap utf8EncodeChar

/-! ## SHA-256 (FIPS 180-4), as used by `node:crypto` -/

/-- Truncate to a 32-bit word. -/
def w32 (n : Nat) : Nat := n % 4294967296

/-- 32-bit modular addition. -/
def add32 (a b : Nat) : Nat := (a + b) % 4294967296

/-- 32-bit right rotation (input assumed `< 2^32`). -/
def rotr32 (x n : Nat) : Nat := w32 ((x >>> n) ||| (x <<< (32 - n)))

/-- 32-bit bitwise complement (input assumed `< 2^32`). -/
def not32 (x : Nat) : Nat := x ^^^ 4294967295

def ch32 (x y z : Nat) : Nat := (x &&& y) ^^^ (not32 x &&& z)

def maj32 (x y z : Nat) : Nat := (x &&& y) ^^^ (x &&& z) ^^^ (y &&& z)

def bigSigma0 (x : Nat) : Nat := rotr32 x 2 ^^^ rotr32 x 13 ^^^ rotr32 x 22

def bigSigma1 (x : Nat) : Nat := rotr32 x 6 ^^^ rotr32 x 11 ^^^ rotr32 x 25

def smallSigma0 (x : Nat) : Nat := rotr32 x 7 ^^^ rotr32 x 18 ^^^ (x >>> 3)

def smallSigma1 (x : Nat) : Nat := rotr32 x 17 ^^^ rotr32 x 19 ^^^ (x >>> 10)

/-- The 64 SHA-256 round constants of FIPS 180-4 (cube-root fractions of
the first 64 primes), written in decimal. -/
def sha256K : List Nat :=
  [1116352408, 1899447441, 3049323471, 3921009573, 961987163,
   1508970993, 2453635748, 2870763221, 3624381080, 310598401,
   607225278, 1426881987, 1925078388, 2162078206, 2614888103,
   3248222580, 3835390401, 4022224774, 264347078, 604807628,
   770255983, 1249150122, 1555081692, 1996064986, 2554220882,
   2821834349, 2952996808, 3210313671, 3336571891, 3584528711,
   113926993, 338241895, 666307205, 773529912, 1294757372,
   1396182291, 1695183700, 1986661051, 2177026350, 2456956037,
   2730485921, 2820302411, 3259730800, 3345764771, 3516065817,
   3600352804, 4094571909, 275423344, 430227734, 506948616,
   659060556, 883997877, 958139571, 1322822218, 1537002063,
   1747873779, 1955562222, 2024104815, 2227730452, 2361852424,
   2428436474, 2756734187, 3204031479, 3329325298]

/-- Working state of the SHA-256 compression function. -/
structure Sha8 where
  a : Nat
  b : Nat
  c : Nat
  d : Nat
  e : Nat
  f : Nat
  g : Nat
  hh : Nat
deriving Repr, DecidableEq

/-- The SHA-256 initial hash value of FIPS 180-4 (square-root fractions of
the first 8 primes), written in decimal. -/
def sha256Init : Sha8 :=
  ⟨1779033703, 3144134277, 1013904242, 2773480762,
   1359893119, 2600822924, 528734635, 1541459225⟩

/-- One round of the SHA-256 compression function; `kw` is the pair of the
round constant and the message-schedule word. -/
def sha256Round (st : Sha8) (kw : Nat × Nat) : Sha8 :=
  let t1 := add32 (add32 (add32 (add32 st.hh (bigSigma1 st.e)) (ch32 st.e st.f st.g)) kw.1) kw.2
  let t2 := add32 (bigSigma0 st.a) (maj32 st.a st.b st.c)
  ⟨add32 t1 t2, st.a, st.b, st.c, add32 st.d t1, st.e, st.f, st.g⟩

/-- Collect big-endian 32-bit words from a byte list (4 bytes per word). -/
def bytesToWordsAux : Nat → List Nat → List Nat
  | 0, _ => []
  | _, [] => []
  | fuel + 1, b0 :: rest =>
    let b1 := rest.getD 0 0
    let b2 := rest.getD 1 0
    let b3 := rest.getD 2 0
    (((b0 <<< 24) ||| (b1 <<< 16)) ||| ((b2 <<< 8) ||| b3)) ::
      bytesToWordsAux fuel (rest.drop 3)

def bytesToWords (bytes : List Nat) : List Nat :=
  bytesToWordsAux bytes.length bytes

/-- Extend the 16 block words to the 64-entry message schedule. -/
def extendW : Nat → List Nat → List Nat
  | 0, w => w
  | fuel + 1, w =>
    let len := w.length
    let next := w32 (smallSigma1 (w.getD (len - 2) 0) + w.getD (len - 7) 0 +
      smallSigma0 (w.getD (len - 15) 0) + w.getD (len - 16) 0)
    extendW fuel (w ++ [next])

/-- Process one 64-byte block. -/
def sha256Block (hs : Sha8) (block : List Nat) : Sha8 :=
  let w := extendW 48 (bytesToWords block)
  let st := (sha256K.zip w).foldl sha256Round hs
  ⟨add32 hs.a st.a, add32 hs.b st.b, add32 hs.c st.c, add32 hs.d st.d,
   add32 hs.e st.e, add32 hs.f st.f, add32 hs.g st.g, add32 hs.hh st.hh⟩

/-- Split a byte list into 64-byte chunks (fuel-structured so that the
kernel can evaluate it). -/
def chunks64Aux : Nat → List Nat → List (List Nat)
  | 0, _ => []
  | _, [] => []
  | fuel + 1, b :: rest => (b :: rest.take 63) :: chunks64Aux fuel (rest.drop 63)

def chunks64 (bytes : List Nat) : List (List Nat) :=
  chunks64Aux bytes.length bytes

/-- Big-endian 8-byte encoding of a natural number. -/
def be64 (n : Nat) : List Nat :=
  [w32 (n >>> 56) % 256, (n >>> 48) % 256, (n >>> 40) % 256, (n >>> 32) % 256,
   (n >>> 24) % 256, (n >>> 16) % 256, (n >>> 8) % 256, n % 256]

/-- SHA-256 padding for a message of `len` bytes. -/
def sha256Pad (len : Nat) : List Nat :=
  0x80 :: List.replicate ((119 - len % 64) % 64) 0 ++ be64 (len * 8)

/-- Big-endian bytes of a 32-bit word. -/
def wordToBytes (n : Nat) : List Nat :=
  [(n >>> 24) % 256, (n >>> 16) % 256, (n >>> 8) % 256, n % 256]

/-- SHA-256 digest (32 bytes) of a byte-list message. -/
def sha256 (msg : List Nat) : List Nat :=
  let padded := msg ++ sha256Pad msg.length
  let hs := (chunks64 padded).foldl sha256Block sha256Init
  wordToBytes hs.a ++ wordToBytes hs.b ++ wordToBytes hs.c ++ wordToBytes hs.d ++
  wordToBytes hs.e ++ wordToBytes hs.f ++ wordToBytes hs.g ++ wordToBytes hs.hh

/-- Lowercase hex digit for a value `< 16`. -/
def hexDigit (n : Nat) : Char :=
  if n < 10 then Char.ofNat (48 + n) else Char.ofNat (87 + n)

/-- Two lowercase hex digits for a byte. -/
def byteToHexChars (b : Nat) : List Char :=
  [hexDigit (b / 16 % 16), hexDigit (b % 16)]

/-- Lowercase hex rendering of a byte list (`digest("hex")` in Node). -/
def bytesToHex (bytes : List Nat) : String :=
  ⟨bytes.flatMap byteToHexChars⟩

/-! ## HMAC-SHA256 (RFC 2104), as used by `crypto.createHmac("sha256", …)` -/

/-- HMAC-SHA256 over byte lists. -/
def hmacSha256 (key msg : List Nat) : List Nat :=
  let key1 := if key.length > 64 then sha256 key else key
  let key0 := key1 ++ List.replicate (64 - key1.length) 0
  let ipad := key0.map (fun b => b ^^^ 0x36)
  let opad := key0.map (fun b => b ^^^ 0x5C)
  sha256 (opad ++ sha256 (ipad ++ msg))

/-- `crypto.createHmac("sha256", secret).update(msg).digest("hex")`:
both strings are UTF-8 encoded. -/
def hmacSha256Hex (secret msg : String) : String :=
  bytesToHex (hmacSha256 (utf8Bytes secret) (utf8Bytes msg))

/-! ## JavaScript numeric conversion

`verifySlackSignature` converts the timestamp header with `Number(timestamp)`
and rejects on `Number.isNaN`. -/

def isDecDigit (c : Char) : Bool := 48 ≤ c.toNat ∧ c.toNat ≤ 57

def digitsToNat (cs : List Char) : Nat :=
  cs.foldl (fun n c => n * 10 + (c.toNat - 48)) 0

/-- Models JavaScript `Number(s)` on the fragment of its grammar this
program exercises: the empty string converts to `0`, an optional sign
followed by decimal digits converts to the signed integer, and any other
string (such as a string containing a letter) is NaN, modelled as `none`.
The fractional / exponent / hex / whitespace parts of the full JS `Number`
grammar fall outside this fragment and are not modelled. -/
def jsNumber (s : String) : Option Int :=
  match s.data with
  | [] => some 0
  | '-' :: rest =>
    if rest ≠ [] ∧ rest.all isDecDigit then some (-(digitsToNat rest : Int)) else none
  | '+' :: rest =>
    if rest ≠ [] ∧ rest.all isDecDigit then some (digitsToNat rest : Int) else none
  | l =>
    if l.all isDecDigit then some (digitsToNat l : Int) else none

/-! ## `crypto.timingSafeEqual` and `verifySlackSignature` (src/slack.ts) -/

/-- `crypto.timingSafeEqual(Buffer.from(a), Buffer.from(b))`: throws a
`RangeError` when the byte lengths differ, otherwise reports byte equality
(the constant-time aspect is a timing property outside the value model). -/
def timingSafeEqual (a b : List Nat) : Except String Bool :=
  if a.length ≠ b.length then
    .error "Input buffers must have the same byte length"
  else
    .ok (a == b)

/-- `MAX_SIGNATURE_AGE_SECONDS` from src/slack.ts. -/
def MAX_SIGNATURE_AGE_SECONDS : Nat := 300

/-- The signature Slack computes for a request:
`"v0=" + hex(HMAC-SHA256(secret, "v0:" + timestamp + ":" + body))`. -/
def expectedSignature (signingSecret timestamp body : String) : String :=
  "v0=" ++ hmacSha256Hex signingSecret ("v0:" ++ timestamp ++ ":" ++ body)

/-- Shallow embedding of `verifySlackSignature` from src/slack.ts.
`now` is `Math.floor(Date.now() / 1000)`, passed explicitly.  The result is
`Except` because the underlying `crypto.timingSafeEqual` call can throw. -/
def verifySlackSignature (signingSecret signature timestamp body : String)
    (now : Int) : Except String Bool :=
  match jsNumber timestamp with
  | none => .ok false
  | some ts =>
    if (now - ts).natAbs > MAX_SIGNATURE_AGE_SECONDS then .ok false
    else
      let computed := expectedSignature signingSecret timestamp body
      if utf16Length computed ≠ utf16Length signature then .ok false
      else timingSafeEqual (utf8Bytes computed) (utf8Bytes signature)

/-! ## `stripAnsi` (src/slack.ts)

`ANSI_REGEX = /\x1b\[[0-9;]*[a-zA-Z]|\x1b\][^\x07]*\x07|\x1b\(A-Z]/g` and
`str.replace(ANSI_REGEX, "")`.  The JS global replace scans left to right,
removing each leftmost match and resuming after it; the three alternatives
start with distinct second characters, and inside the CSI alternative the
body class `[0-9;]` is disjoint from the final letter class, so greedy
matching is the simple maximal-run scan modelled here. -/

def escChar : Char := Char.ofNat 27

def belChar : Char := Char.ofNat 7

def isCsiBody (c : Char) : Bool := isDecDigit c || c == Char.ofNat 59

def isAsciiLetter (c : Char) : Bool :=
  (65 ≤ c.toNat && c.toNat ≤ 90) || (97 ≤ c.toNat && c.toNat ≤ 122)

def isUpperLetter (c : Char) : Bool := 65 ≤ c.toNat && c.toNat ≤ 90

/-- Scan the CSI body `[0-9;]*` then require a final `[a-zA-Z]`;
`n` is the number of characters already consumed. -/
def csiScan : List Char → Nat → Option Nat
  | [], _ => none
  | c :: rest, n =>
    if isCsiBody c then csiScan rest (n + 1)
    else if isAsciiLetter c then some (n + 1)
    else none

/-- Scan the OSC body `[^\x07]*` then the terminating BEL. -/
def oscScan : List Char → Nat → Option Nat
  | [], _ => none
  | c :: rest, n => if c == belChar then some (n + 1) else oscScan rest (n + 1)

/-- Length of the `ANSI_REGEX` match starting at the head of the list,
if any. -/
def tryAnsiMatch : List Char → Option Nat
  | c1 :: c2 :: rest =>
    if c1 == escChar then
      if c2 == '[' then csiScan rest 2
      else if c2 == ']' then oscScan rest 2
      else if c2 == '(' then
        match rest with
        | c3 :: _ => if isUpperLetter c3 then some 3 else none
        | [] => none
      else none
    else none
  | _ => none

/-- Replace-all scan; the fuel (initialised to the list length) dominates
the number of steps since every step consumes at least one character. -/
def stripAnsiAux : Nat → List Char → List Char
  | 0, l => l
  | _, [] => []
  | fuel + 1, c :: rest =>
    match tryAnsiMatch (c :: rest) with
    | some len => stripAnsiAux fuel ((c :: rest).drop len)
    | none => c :: stripAnsiAux fuel rest

/-- Shallow embedding of `stripAnsi` from src/slack.ts. -/
def stripAnsi (s : String) : String := ⟨stripAnsiAux s.data.length s.data⟩

/-! ## `OutputBuffer` (src/slack.ts)

The class holds an accumulating string and at most one pending `setTimeout`
handle.  We model the object state plus the single-threaded event-loop
semantics of its timer: an `append` arriving while a flush timer is pending
cancels it (`clearTimeout`) and schedules a new one a full `delayMs` later;
a timer whose deadline has passed fires before the next event is handled. -/

structure OutputBuffer where
  buffer : String
  /-- Absolute deadline (ms) of the pending flush timer, if one is set. -/
  timer : Option Nat
deriving Repr, DecidableEq

/-- The freshly constructed object: empty buffer, no timer. -/
def OutputBuffer.start : OutputBuffer := ⟨"", none⟩

/-- `flush()`: clear the timer, strip the accumulated buffer once, reset it,
and invoke `onFlush` exactly when the stripped text is non-empty.  The
second component is the `onFlush` invocation, if any. -/
def OutputBuffer.flushStep (ob : OutputBuffer) : OutputBuffer × Option String :=
  let text := stripAnsi ob.buffer
  (⟨"", none⟩, if text.length > 0 then some text else none)

/-- `append(data)` executed at absolute time `t`: raw data is concatenated
(unstripped), any pending timer is cancelled, and a new timer is set for
the full `delayMs` from now. -/
def OutputBuffer.appendStep (delayMs : Nat) (ob : OutputBuffer) (t : Nat)
    (data : String) : OutputBuffer :=
  { buffer := ob.buffer ++ data, timer := some (t + delayMs) }

/-- `destroy()`: cancel the timer and discard the buffer without flushing. -/
def OutputBuffer.destroyStep (_ob : OutputBuffer) : OutputBuffer := ⟨"", none⟩

/-- An `OutputBuffer` run: the object state plus the chronological record of
`onFlush` invocations handed to the sink. -/
structure OBRun where
  ob : OutputBuffer
  flushes : List String
deriving Repr, DecidableEq

def OBRun.fresh : OBRun := ⟨OutputBuffer.start, []⟩

/-- Fire the pending flush timer if its deadline is at or before `t`
(the event loop runs due timer callbacks before later events). -/
def OBRun.fireIfDue (r : OBRun) (t : Nat) : OBRun :=
  match r.ob.timer with
  | some d =>
    if d ≤ t then
      let p := r.ob.flushStep
      ⟨p.1, r.flushes ++ p.2.toList⟩
    else r
  | none => r

/-- Handle an `append` event at time `t`. -/
def OBRun.appendAt (delayMs : Nat) (r : OBRun) (t : Nat) (data : String) : OBRun :=
  let r2 := r.fireIfDue t
  ⟨r2.ob.appendStep delayMs t data, r2.flushes⟩

/-- Run a chronological list of timed `append` events. -/
def OBRun.runAppends (delayMs : Nat) : OBRun → List (Nat × String) → OBRun
  | r, [] => r
  | r, (t, d) :: rest => OBRun.runAppends delayMs (r.appendAt delayMs t d) rest

/-- Let time pass until the pending timer (if any) fires. -/
def OBRun.settle (r : OBRun) : OBRun :=
  match r.ob.timer with
  | some _ =>
    let p := r.ob.flushStep
    ⟨p.1, r.flushes ++ p.2.toList⟩
  | none => r

/-- A burst: each event time is at or after the previous one and strictly
less than one debounce delay after it. -/
def burstFrom (delay : Nat) : Nat → List (Nat × String) → Bool
  | _, [] => true
  | prev, (t, _) :: rest =>
    decide (prev ≤ t) && decide (t < prev + delay) && burstFrom delay t rest

/-- Time of the last event, or `prev` when there is none. -/
def lastTime (prev : Nat) : List (Nat × String) → Nat
  | [] => prev
  | (t, _) :: rest => lastTime t rest

/-- Concatenation of a list of strings. -/
def strConcat : List String → String
  | [] => ""
  | s :: rest => s ++ strConcat rest

/-- Whether a string contains the ESC character (so that escape-sequence
stripping could affect it). -/
def hasEsc (s : String) : Bool := s.data.any (· == escChar)

/-! ## Association-list model of the JS `Map`s used by the sources.
`Map.set` overwrites in place or appends, `Map.get` returns the value or
`undefined`, `Map.delete` removes the entry. -/

def listSet {α : Type} : List (String × α) → String → α → List (String × α)
  | [], k, v => [(k, v)]
  | (k1, v1) :: rest, k, v =>
    if k1 = k then (k, v) :: rest else (k1, v1) :: listSet rest k v

def listGet {α : Type} : List (String × α) → String → Option α
  | [], _ => none
  | (k1, v1) :: rest, k => if k1 = k then some v1 else listGet rest k

def listDel {α : Type} : List (String × α) → String → List (String × α)
  | [], _ => []
  | (k1, v1) :: rest, k => if k1 = k then rest else (k1, v1) :: listDel rest k

/-! ## `SlackBridge` reply routing (src/slack.ts) -/

/-- The `"channel:thread"` key of the reverse mapping. -/
def threadKey (channelId threadTs : String) : String :=
  channelId ++ ":" ++ threadTs

/-- The `SlackBridge` state relevant to thread-reply routing: the forward
room-link map, the reverse thread map, and whether `onWrite` has registered
a write callback (the callback itself is external I/O). -/
structure SlackBridge where
  linkedRooms : List (String × (String × String))
  threadToRoom : List (String × String)
  hasWriteCallback : Bool
deriving Repr, DecidableEq

def SlackBridge.init : SlackBridge := ⟨[], [], false⟩

/-- `linkRoom(roomCode, channelId, threadTs)`: registers both directions
(the per-link `OutputBuffer` carries no state relevant to reply routing). -/
def SlackBridge.linkRoom (b : SlackBridge) (roomCode channelId threadTs : String) :
    SlackBridge :=
  { b with
    linkedRooms := listSet b.linkedRooms roomCode (channelId, threadTs),
    threadToRoom := listSet b.threadToRoom (threadKey channelId threadTs) roomCode }

/-- `onWrite(callback)`. -/
def SlackBridge.onWriteReg (b : SlackBridge) : SlackBridge :=
  { b with hasWriteCallback := true }

def SlackBridge.getRoomForThread (b : SlackBridge) (channelId threadTs : String) :
    Option String :=
  listGet b.threadToRoom (threadKey channelId threadTs)

/-- `handleThreadReply(channelId, threadTs, text)`: the returned value is
the `writeCallback` invocation (room code and data), if one happens.
`if (roomCode && this.writeCallback)`: in JS both `undefined` and the empty
string are falsy. -/
def SlackBridge.handleThreadReply (b : SlackBridge) (channelId threadTs text : String) :
    Option (String × String) :=
  match b.getRoomForThread channelId threadTs with
  | some roomCode =>
    if roomCode ≠ "" ∧ b.hasWriteCallback then some (roomCode, text ++ "\n") else none
  | none => none

/-! ## `Room` and `RoomManager` (src/rooms.ts, the variant with
`creatorSocketId` that src/server.ts is written against) -/

structure Room where
  code : String
  creatorSocketId : Option String
  /-- `Map<socketId, displayName>` in insertion order. -/
  users : List (String × String)
deriving Repr, DecidableEq

def Room.new (code : String) : Room := ⟨code, none, []⟩

def Room.userCount (r : Room) : Nat := r.users.length

/-- `addUser`: the first joiner becomes the creator; later calls leave
`creatorSocketId` untouched. -/
def Room.addUser (r : Room) (socketId name : String) : Room :=
  { r with
    creatorSocketId := if r.creatorSocketId = none then some socketId else r.creatorSocketId,
    users := listSet r.users socketId name }

def Room.removeUser (r : Room) (socketId : String) : Room :=
  { r with users := listDel r.users socketId }

def Room.getUserNames (r : Room) : List String := r.users.map Prod.snd

/-- `destroy()` clears the user map (the creator field is left as is). -/
def Room.destroyUsers (r : Room) : Room := { r with users := [] }

structure RoomManager where
  rooms : List (String × Room)
deriving Repr, DecidableEq

def RoomManager.init : RoomManager := ⟨[]⟩

/-- `createRoom()`; the nanoid-generated 6-character code is passed in
explicitly (code generation is nondeterministic I/O). -/
def RoomManager.createRoom (rm : RoomManager) (code : String) : Room × RoomManager :=
  (Room.new code, ⟨listSet rm.rooms code (Room.new code)⟩)

def RoomManager.getRoom (rm : RoomManager) (code : String) : Option Room :=
  listGet rm.rooms code

/-- `destroyRoom`: idempotent; clears the room object then removes it. -/
def RoomManager.destroyRoom (rm : RoomManager) (code : String) : RoomManager :=
  match listGet rm.rooms code with
  | some _ => ⟨listDel rm.rooms code⟩
  | none => rm

/-! ## Server handlers (src/server.ts) -/

/-- The server-side state the handlers mutate: the room registry, the
`ptyProcesses` map (room code to pty pid), and the log of pids on which
`kill()` has been invoked. -/
structure ServerState where
  manager : RoomManager
  ptys : List (String × Nat)
  killedLog : List Nat
deriving Repr, DecidableEq

def ServerState.init : ServerState := ⟨RoomManager.init, [], []⟩

/-- Outcome of the `io.on("connection")` admission sequence:
a rejection emits `error:room` with the message and then calls
`socket.disconnect()`; an admission adds the user and broadcasts
`user:joined` with the roster. -/
inductive Admission where
  | rejected (message : String)
  | admitted (roster : List String)
deriving Repr, DecidableEq

/-- `socket.disconnect()` is called exactly on the rejection paths. -/
def Admission.disconnected : Admission → Bool
  | .rejected _ => true
  | .admitted _ => false

/-- A missing (`undefined`) or empty query parameter is falsy in JS. -/
def falsyStr : Option String → Bool
  | none => true
  | some s => s = ""

/-- An apostrophe character, for building the JS template-string messages. -/
def apos : String := String.singleton (Char.ofNat 39)

/-- Shallow embedding of the connection handler (src/server.ts lines
199-230): query-parameter admission, then `room.addUser` and the
`user:joined` broadcast.  There is no capacity check on this path. -/
def handleConnection (st : ServerState) (roomCode displayName : Option String)
    (socketId : String) : Admission × ServerState :=
  if falsyStr roomCode || falsyStr displayName then
    (.rejected "roomCode and displayName required", st)
  else
    match roomCode with
    | some code =>
      match st.manager.getRoom code with
      | none =>
        (.rejected ("Room " ++ apos ++ code ++ apos ++ " not found"), st)
      | some room =>
        let room2 := room.addUser socketId (displayName.getD "")
        (.admitted room2.getUserNames,
         { st with manager := ⟨listSet st.manager.rooms code room2⟩ })
    | none => (.rejected "roomCode and displayName required", st)

/-- Shallow embedding of the disconnect handler (src/server.ts lines
259-275): remove the user, broadcast `user:left`, and if the room is now
empty kill its pty (when one is registered), drop the pty entry and destroy
the room — all within one event turn.  The second component is the list of
pids `kill()` was invoked on during the turn.  The handler's `room` is the
closure-captured object, modelled through its registry entry (identical
whenever the room is still registered). -/
def handleDisconnect (st : ServerState) (roomCode socketId : String) :
    ServerState × List Nat :=
  match listGet st.manager.rooms roomCode with
  | none => (st, [])
  | some room =>
    let room2 := room.removeUser socketId
    let mgr2 : RoomManager := ⟨listSet st.manager.rooms roomCode room2⟩
    if room2.userCount = 0 then
      match listGet st.ptys roomCode with
      | some pid =>
        ({ manager := mgr2.destroyRoom roomCode,
           ptys := listDel st.ptys roomCode,
           killedLog := st.killedLog ++ [pid] }, [pid])
      | none =>
        ({ manager := mgr2.destroyRoom roomCode,
           ptys := st.ptys,
           killedLog := st.killedLog }, [])
    else
      ({ st with manager := mgr2 }, [])

/-- Shallow embedding of `createRoomInternal` (src/server.ts lines
150-183): create the room, then spawn; on spawn failure destroy the
just-created room and rethrow; on success register the pty.  `newCode` is
the generated room code, `spawnResult` the outcome of `spawnPty` (an
exception or the pty pid). -/
def createRoomInternal (st : ServerState) (newCode : String)
    (spawnResult : Except String Nat) : Except String String × ServerState :=
  let room := Room.new newCode
  let mgr1 : RoomManager := ⟨listSet st.manager.rooms newCode room⟩
  match spawnResult with
  | .error err =>
    (.error err, { st with manager := mgr1.destroyRoom newCode })
  | .ok pid =>
    (.ok newCode, { st with manager := mgr1, ptys := listSet st.ptys newCode pid })

structure HttpResponse where
  status : Nat
  body : String
deriving Repr, DecidableEq

/-- Shallow embedding of `POST /api/rooms` (src/server.ts lines 186-196):
the room code as a 200, or a 500 whose body carries the failure reason. -/
def postApiRooms (st : ServerState) (newCode : String)
    (spawnResult : Except String Nat) : HttpResponse × ServerState :=
  match createRoomInternal st newCode spawnResult with
  | (.error msg, st2) => (⟨500, "Failed to spawn shell: " ++ msg⟩, st2)
  | (.ok code, st2) => (⟨200, code⟩, st2)

/-- The `terminal:resize` handler (src/server.ts lines 250-256) forwards a
resize exactly when the requesting socket is the room's creator
(`if (socket.id !== room.creatorSocketId) return;`). -/
def resizeForwarded (room : Room) (socketId : String) : Bool :=
  room.creatorSocketId == some socketId

/-- A membership / resize event sequence against one room. -/
inductive RoomOp where
  | add (socketId name : String)
  | remove (socketId : String)
deriving Repr, DecidableEq

def Room.applyOp (r : Room) : RoomOp → Room
  | .add sid name => r.addUser sid name
  | .remove sid => r.removeUser sid

def Room.applyOps (r : Room) (ops : List RoomOp) : Room :=
  ops.foldl Room.applyOp r

/-! ## `TunnelManager` (src/tunnel.ts) -/

/-- Tunnel state: `process` is `some killed?` when a helper child object is
held, `url` is the cached `_url`. -/
structure TunnelState where
  process : Option Bool
  url : Option String
deriving Repr, DecidableEq

def TunnelState.init : TunnelState := ⟨none, none⟩

/-- `this.process !== null && !this.process.killed`. -/
def TunnelState.isRunning (tm : TunnelState) : Bool :=
  match tm.process with
  | some killed => !killed
  | none => false

/-- `stop()`: if a process is held, kill it and clear both fields. -/
def TunnelState.stop (tm : TunnelState) : TunnelState :=
  match tm.process with
  | some _ => ⟨none, none⟩
  | none => tm

/-- The first settling event of a `start` attempt: a data chunk matching
`URL_PATTERN`, a spawn `error` event (with its errno code), a `close`
before any URL, or the 15-second startup timeout. -/
inductive StartOutcome where
  | urlFound (u : String)
  | spawnErr (code : String)
  | earlyClose (exitCode : Int)
  | timedOut
deriving Repr, DecidableEq

/-- The typed rejection reasons of `start`. -/
inductive TunnelErr where
  | alreadyRunning
  | notInstalled
  | spawnFailure (code : String)
  | timeout
  | earlyExit (exitCode : Int)
deriving Repr, DecidableEq

/-- The message each rejection carries in the source. -/
def TunnelErr.message : TunnelErr → String
  | .alreadyRunning => "Tunnel is already running"
  | .notInstalled => "cloudflared is not installed. Install it from https://developers.cloudflare.com/cloudflare-one/connections/connect-networks/downloads/"
  | .spawnFailure code => code
  | .timeout => "Timed out waiting for cloudflared tunnel URL"
  | .earlyExit exitCode => "cloudflared exited with code " ++ toString exitCode ++ " before producing a URL"

/-- Shallow embedding of `start(port)`: reject immediately when already
running; otherwise spawn the helper (`this.process = child`) and settle on
the first event.  The timeout callback calls `this.stop()`; the error and
close handlers null out `process` and `_url` directly. -/
def TunnelState.start (tm : TunnelState) (ev : StartOutcome) :
    TunnelState × Except TunnelErr String :=
  if tm.isRunning then (tm, .error .alreadyRunning)
  else
    match ev with
    | .urlFound u => (⟨some false, some u⟩, .ok u)
    | .spawnErr code =>
      (⟨none, none⟩,
       .error (if code = "ENOENT" then .notInstalled else .spawnFailure code))
    | .earlyClose exitCode => (⟨none, none⟩, .error (.earlyExit exitCode))
    | .timedOut => (TunnelState.stop ⟨some false, tm.url⟩, .error .timeout)

/-- The unconditional `close` handler: a helper that dies after a
successful start clears `process` and `_url` so `isRunning` reflects
reality. -/
def TunnelState.helperClosed (_tm : TunnelState) : TunnelState := ⟨none, none⟩

/-! ## Supporting lemmas -/

theorem string_append_data (a b : String) : (a ++ b).data = a.data ++ b.data := rfl

theorem string_append_assoc (a b c : String) : (a ++ b) ++ c = a ++ (b ++ c) := by
  apply String.ext
  simp [string_append_data]

theorem string_append_empty (a : String) : a ++ "" = a := by
  apply String.ext
  simp [string_append_data]

theorem string_empty_append (a : String) : "" ++ a = a := by
  apply String.ext
  simp [string_append_data]

theorem string_ne_empty_iff (s : String) : s ≠ "" ↔ s.data ≠ [] := by
  constructor
  · intro h hd
    exact h (String.ext hd)
  · intro h hs
    exact h (by rw [hs])

theorem string_length_data (s : String) : s.length = s.data.length := rfl

theorem sum_charUnits_eq_length :
    ∀ l : List Char, (∀ c ∈ l, c.toNat < 0x10000) → (l.map charUnits).sum = l.length := by
  intro l
  induction l with
  | nil => intro _; rfl
  | cons c rest ih =>
    intro h
    have hc : charUnits c = 1 := by
      unfold charUnits
      have := h c (by simp)
      simp [Nat.not_le.mpr this]
    simp only [List.map_cons, List.sum_cons, hc, List.length_cons]
    rw [ih (fun x hx => h x (by simp [hx]))]
    omega

theorem utf16Length_eq_length (s : String) (h : ∀ c ∈ s.data, c.toNat < 0x10000) :
    utf16Length s = s.data.length :=
  sum_charUnits_eq_length s.data h

theorem hexDigit_lt_128 : ∀ m, m < 16 → (hexDigit m).toNat < 128 := by decide

theorem byteToHexChars_ascii (b : Nat) : ∀ c ∈ byteToHexChars b, c.toNat < 128 := by
  intro c hc
  unfold byteToHexChars at hc
  have h1 : b / 16 % 16 < 16 := Nat.mod_lt _ (by omega)
  have h2 : b % 16 < 16 := Nat.mod_lt _ (by omega)
  simp only [List.mem_cons, List.not_mem_nil, or_false] at hc
  rcases hc with h | h
  · rw [h]; exact hexDigit_lt_128 _ h1
  · rw [h]; exact hexDigit_lt_128 _ h2

theorem bytesToHex_ascii (bytes : List Nat) : ∀ c ∈ (bytesToHex bytes).data, c.toNat < 128 := by
  intro c hc
  unfold bytesToHex at hc
  simp only [List.mem_flatMap] at hc
  obtain ⟨b, _, hcb⟩ := hc
  exact byteToHexChars_ascii b c hcb

theorem bytesToHex_data_length (bytes : List Nat) :
    (bytesToHex bytes).data.length = 2 * bytes.length := by
  unfold bytesToHex
  induction bytes with
  | nil => rfl
  | cons b rest ih =>
    simp only [List.flatMap_cons, List.length_append] at *
    rw [ih]
    simp [byteToHexChars]
    omega

set_option maxRecDepth 100000 in
/-- The SHA-256 embedding matches the FIPS 180-2 test vector for `"abc"`. -/
theorem sha256_fips_vector :
    bytesToHex (sha256 (utf8Bytes "abc")) =
      "ba7816bf8f01cfea414140de5dae2223b00361a396177a9cb410ff61f20015ad" := by decide

set_option maxRecDepth 100000 in
/-- The HMAC-SHA256 embedding matches the published test vector. -/
theorem hmacSha256_vector :
    hmacSha256Hex "key" "The quick brown fox jumps over the lazy dog" =
      "f7bc83f430538424b13298e6aa6fb143ef4d59a14946175997479dbc2d1a3cd8" := by decide

theorem sha256_length (m : List Nat) : (sha256 m).length = 32 := by
  simp [sha256, wordToBytes]

theorem hmacSha256_length (key msg : List Nat) : (hmacSha256 key msg).length = 32 := by
  unfold hmacSha256
  exact sha256_length _

theorem expectedSignature_data_length (secret timestamp body : String) :
    (expectedSignature secret timestamp body).data.length = 67 := by
  unfold expectedSignature hmacSha256Hex
  rw [string_append_data, List.length_append, bytesToHex_data_length, hmacSha256_length]
  decide

theorem expectedSignature_ascii (secret timestamp body : String) :
    ∀ c ∈ (expectedSignature secret timestamp body).data, c.toNat < 128 := by
  intro c hc
  unfold expectedSignature hmacSha256Hex at hc
  rw [string_append_data, List.mem_append] at hc
  rcases hc with h | h
  · exact (by decide : ∀ x ∈ "v0=".data, x.toNat < 128) c h
  · exact bytesToHex_ascii _ c h

theorem expectedSignature_utf16Length (secret timestamp body : String) :
    utf16Length (expectedSignature secret timestamp body) = 67 := by
  rw [utf16Length_eq_length, expectedSignature_data_length]
  intro c hc
  have := expectedSignature_ascii secret timestamp body c hc
  omega

theorem flatMap_utf8_ascii_length :
    ∀ l : List Char, (∀ c ∈ l, c.toNat < 128) → (l.flatMap utf8EncodeChar).length = l.length := by
  intro l
  induction l with
  | nil => intro _; rfl
  | cons c rest ih =>
    intro h
    have hlt : c.toNat < 128 := h c (by simp)
    have hc : utf8EncodeChar c = [c.toNat] := by
      unfold utf8EncodeChar
      simp only [if_pos (by omega : c.toNat < 0x80)]
    simp only [List.flatMap_cons, hc, List.length_append, List.length_cons]
    rw [ih (fun x hx => h x (by simp [hx]))]
    simp [Nat.add_comm]

theorem ascii_utf8Bytes_length (s : String) (h : ∀ c ∈ s.data, c.toNat < 128) :
    (utf8Bytes s).length = s.data.length :=
  flatMap_utf8_ascii_length s.data h

/-- A 67-character all-`é` signature: its JS string length matches the
computed signature's, but its UTF-8 encoding is 134 bytes. -/
def nonAsciiSig : String := ⟨List.replicate 67 (Char.ofNat 233)⟩

theorem listGet_set_self {α : Type} (l : List (String × α)) (k : String) (v : α) :
    listGet (listSet l k v) k = some v := by
  induction l with
  | nil => simp [listSet, listGet]
  | cons p rest ih =>
    obtain ⟨k1, v1⟩ := p
    by_cases h : k1 = k
    · simp [listSet, listGet, h]
    · simp [listSet, listGet, h, ih]

theorem listDel_set_fresh {α : Type} (l : List (String × α)) (k : String) (v : α)
    (h : listGet l k = none) : listDel (listSet l k v) k = l := by
  induction l with
  | nil => simp [listSet, listDel]
  | cons p rest ih =>
    obtain ⟨k1, v1⟩ := p
    by_cases hk : k1 = k
    · simp [listGet, hk] at h
    · simp only [listGet, if_neg hk] at h
      simp [listSet, listDel, hk, ih h]

theorem listGet_none_of_not_mem {α : Type} (l : List (String × α)) (k : String)
    (h : k ∉ l.map Prod.fst) : listGet l k = none := by
  induction l with
  | nil => rfl
  | cons p rest ih =>
    obtain ⟨k1, v1⟩ := p
    simp only [List.map_cons, List.mem_cons] at h
    push_neg at h
    have hne : ¬(k1 = k) := fun hk => h.1 hk.symm
    simp only [listGet, if_neg hne]
    exact ih h.2

theorem keys_listSet_sub {α : Type} (l : List (String × α)) (k : String) (v : α) :
    ∀ x ∈ (listSet l k v).map Prod.fst, x = k ∨ x ∈ l.map Prod.fst := by
  induction l with
  | nil => simp [listSet]
  | cons p rest ih =>
    obtain ⟨k1, v1⟩ := p
    intro x hx
    by_cases hk : k1 = k
    · subst hk
      simp only [listSet, if_true] at hx
      simp only [List.map_cons, List.mem_cons] at hx
      simp only [List.map_cons, List.mem_cons]
      tauto
    · simp only [listSet, if_neg hk, List.map_cons, List.mem_cons] at hx
      simp only [List.map_cons, List.mem_cons]
      rcases hx with h | h
      · tauto
      · rcases ih x h with h2 | h2
        · exact Or.inl h2
        · tauto

theorem nodup_keys_listSet {α : Type} (l : List (String × α)) (k : String) (v : α)
    (h : (l.map Prod.fst).Nodup) : ((listSet l k v).map Prod.fst).Nodup := by
  induction l with
  | nil => simp [listSet]
  | cons p rest ih =>
    obtain ⟨k1, v1⟩ := p
    simp only [List.map_cons, List.nodup_cons] at h
    by_cases hk : k1 = k
    · subst hk
      simp only [listSet, if_true, List.map_cons, List.nodup_cons]
      exact h
    · simp only [listSet, if_neg hk, List.map_cons, List.nodup_cons]
      refine ⟨?_, ih h.2⟩
      intro hmem
      rcases keys_listSet_sub rest k v k1 hmem with h2 | h2
      · exact hk h2
      · exact h.1 h2

theorem listGet_listDel_self {α : Type} (l : List (String × α)) (k : String)
    (h : (l.map Prod.fst).Nodup) : listGet (listDel l k) k = none := by
  induction l with
  | nil => rfl
  | cons p rest ih =>
    obtain ⟨k1, v1⟩ := p
    simp only [List.map_cons, List.nodup_cons] at h
    by_cases hk : k1 = k
    · subst hk
      simp only [listDel, if_true]
      exact listGet_none_of_not_mem rest k1 h.1
    · simp only [listDel, if_neg hk, listGet, if_neg hk]
      exact ih h.2

/-! ## Claim theorems -/

set_option maxRecDepth 1000000 in
/-- C1: `verifySlackSignature` accepts exactly the Slack-computed signature
within the 300-second clock-skew window: it returns true for the correctly
computed signature; false for a tampered body, a signature from a different
secret, a timestamp 600 seconds old, and a non-numeric timestamp; and any
signature whose length differs from the computed one (such as a truncated
signature) is rejected with `false` straight from the length comparison,
the byte comparison never being reached. -/
theorem verifySlackSignature_correct :
    (∀ secret body tsStr now ts, jsNumber tsStr = some ts → (now - ts).natAbs ≤ 300 →
      verifySlackSignature secret (expectedSignature secret tsStr body) tsStr body now =
        .ok true)
    ∧ (verifySlackSignature "sec" (expectedSignature "sec" "0" "a") "0" "b" 0 = .ok false)
    ∧ (verifySlackSignature "sec" (expectedSignature "oth" "0" "a") "0" "a" 0 = .ok false)
    ∧ (∀ secret sig body tsStr now ts, jsNumber tsStr = some ts → now - ts = 600 →
      verifySlackSignature secret sig tsStr body now = .ok false)
    ∧ (∀ secret sig body now, verifySlackSignature secret sig "abc" body now = .ok false)
    ∧ (∀ secret sig tsStr body now ts, jsNumber tsStr = some ts →
      (now - ts).natAbs ≤ 300 → utf16Length sig ≠ 67 →
      verifySlackSignature secret sig tsStr body now = .ok false) := by
  refine ⟨?_, ?_, ?_, ?_, ?_, ?_⟩
  · intro secret body tsStr now ts hts hw
    simp only [verifySlackSignature, hts, MAX_SIGNATURE_AGE_SECONDS]
    rw [if_neg (by omega)]
    simp [timingSafeEqual]
  · decide
  · decide
  · intro secret sig body tsStr now ts hts h600
    simp only [verifySlackSignature, hts, MAX_SIGNATURE_AGE_SECONDS]
    rw [if_pos (by omega)]
  · intro secret sig body now
    have habc : jsNumber "abc" = none := by decide
    simp only [verifySlackSignature, habc]
  · intro secret sig tsStr body now ts hts hw hlen
    simp only [verifySlackSignature, hts, MAX_SIGNATURE_AGE_SECONDS]
    rw [if_neg (by omega)]
    rw [if_pos (by rw [expectedSignature_utf16Length]; omega)]

/-- Witness for C1 at concrete inputs: a valid signature for timestamp 1000
checked at time 1100 verifies; any signature at a timestamp 600 seconds old
is rejected; the truncated signature `"v0=short"` is rejected. -/
theorem verifySlackSignature_correct_witness :
    verifySlackSignature "sec" (expectedSignature "sec" "1000" "b") "1000" "b" 1100 =
      .ok true
    ∧ verifySlackSignature "sec" "v0=whatever" "400" "b" 1000 = .ok false
    ∧ verifySlackSignature "sec" "v0=short" "1000" "b" 1100 = .ok false :=
  ⟨verifySlackSignature_correct.1 "sec" "b" "1000" 1100 1000 (by decide) (by decide),
   verifySlackSignature_correct.2.2.2.1 "sec" "v0=whatever" "b" "400" 1000 400
     (by decide) (by decide),
   verifySlackSignature_correct.2.2.2.2.2 "sec" "v0=short" "1000" "b" 1100 1000
     (by decide) (by decide) (by decide)⟩

set_option maxRecDepth 1000000 in
/-- C2 counterexample: `verifySlackSignature` is not total.  A signature of
67 non-ASCII characters passes the JS string-length guard (67 = 67) but its
UTF-8 buffer has 134 bytes, so `crypto.timingSafeEqual` throws instead of
returning false. -/
theorem verifySlackSignature_throws_on_nonascii :
    verifySlackSignature "sec" nonAsciiSig "0" "" 0 =
      .error "Input buffers must have the same byte length" := by decide

/-- C2 (amended): for every signature whose characters are ASCII — which
includes every signature Slack itself sends — `verifySlackSignature` is
total: each failed check returns `false` and the byte comparison is always
reached with equal-length buffers, so no exception is raised. -/
theorem verifySlackSignature_total_ascii :
    ∀ secret sig tsStr body now, (∀ c ∈ sig.data, c.toNat < 128) →
      ∃ b, verifySlackSignature secret sig tsStr body now = Except.ok b := by
  intro secret sig tsStr body now hascii
  cases hjs : jsNumber tsStr with
  | none => exact ⟨false, by simp only [verifySlackSignature, hjs]⟩
  | some ts =>
    by_cases hw : (now - ts).natAbs > MAX_SIGNATURE_AGE_SECONDS
    · exact ⟨false, by simp only [verifySlackSignature, hjs]; rw [if_pos hw]⟩
    · by_cases hlen :
        utf16Length (expectedSignature secret tsStr body) ≠ utf16Length sig
      · exact ⟨false, by simp only [verifySlackSignature, hjs]; rw [if_neg hw, if_pos hlen]⟩
      · push_neg at hlen
        have h1 : (utf8Bytes (expectedSignature secret tsStr body)).length = 67 := by
          rw [ascii_utf8Bytes_length _ (expectedSignature_ascii secret tsStr body),
            expectedSignature_data_length]
        have h2 : (utf8Bytes sig).length = sig.data.length :=
          ascii_utf8Bytes_length _ hascii
        have h3 : utf16Length sig = sig.data.length :=
          utf16Length_eq_length _ (fun c hc => by have := hascii c hc; omega)
        have h4 : utf16Length sig = 67 := by
          rw [← hlen, expectedSignature_utf16Length]
        refine ⟨utf8Bytes (expectedSignature secret tsStr body) == utf8Bytes sig, ?_⟩
        simp only [verifySlackSignature, hjs]
        rw [if_neg hw, if_neg (by omega)]
        simp only [timingSafeEqual]
        rw [if_neg (by omega)]

/-- Witness for C2 (amended) at a concrete input: an ASCII signature string
never makes verification throw. -/
theorem verifySlackSignature_total_ascii_witness :
    ∃ b, verifySlackSignature "sec" "v0=short" "abc" "x" 5 = Except.ok b :=
  verifySlackSignature_total_ascii "sec" "v0=short" "abc" "x" 5 (by decide)

/-- C7: if the pty spawn throws during room creation, `POST /api/rooms`
responds 500 with the failure reason and the just-created room is rolled
back, leaving the registry and the pty map exactly as before the request
(for a generated code not colliding with a live room, which the generator
does not guarantee but the spec carves out as a known risk). -/
theorem postApiRooms_spawn_failure_rollback :
    ∀ st newCode msg, listGet st.manager.rooms newCode = none →
      postApiRooms st newCode (.error msg) =
        (⟨500, "Failed to spawn shell: " ++ msg⟩, st) := by
  intro st newCode msg hfresh
  obtain ⟨⟨rooms⟩, ptys, kl⟩ := st
  simp only [postApiRooms, createRoomInternal, RoomManager.destroyRoom,
    listGet_set_self, listDel_set_fresh rooms newCode (Room.new newCode) hfresh]

/-- Witness for C7: a concrete registry with one live room, a fresh code,
and a failing spawn. -/
theorem postApiRooms_spawn_failure_rollback_witness :
    postApiRooms ⟨⟨[("aaaaaa", Room.new "aaaaaa")]⟩, [("aaaaaa", 3)], []⟩ "bbbbbb"
        (.error "spawn python3 ENOENT") =
      (⟨500, "Failed to spawn shell: spawn python3 ENOENT"⟩,
       ⟨⟨[("aaaaaa", Room.new "aaaaaa")]⟩, [("aaaaaa", 3)], []⟩) :=
  postApiRooms_spawn_failure_rollback
    ⟨⟨[("aaaaaa", Room.new "aaaaaa")]⟩, [("aaaaaa", 3)], []⟩ "bbbbbb"
    "spawn python3 ENOENT" (by decide)

/-- C6: when the disconnect handler removes the last user of a registered
room, then within that same event turn the room's pty (when one is
registered) receives `kill()` and is dropped from the pty map, and the room
is destroyed: afterwards neither the room nor a pty entry is resolvable by
the former code, so no write can target the freed room. -/
theorem handleDisconnect_last_viewer :
    ∀ st roomCode sid room,
      (st.manager.rooms.map Prod.fst).Nodup →
      (st.ptys.map Prod.fst).Nodup →
      listGet st.manager.rooms roomCode = some room →
      (room.removeUser sid).userCount = 0 →
      (handleDisconnect st roomCode sid).1.manager.getRoom roomCode = none
      ∧ listGet (handleDisconnect st roomCode sid).1.ptys roomCode = none
      ∧ (∀ pid, listGet st.ptys roomCode = some pid →
          (handleDisconnect st roomCode sid).2 = [pid]
          ∧ (handleDisconnect st roomCode sid).1.killedLog = st.killedLog ++ [pid])
      ∧ (listGet st.ptys roomCode = none → (handleDisconnect st roomCode sid).2 = []) := by
  intro st roomCode sid room hnr hnp hroom hempty
  have hdestroy :
      ∀ mgr2 : RoomManager,
        mgr2 = ⟨listSet st.manager.rooms roomCode (room.removeUser sid)⟩ →
        (mgr2.destroyRoom roomCode).getRoom roomCode = none := by
    intro mgr2 hm
    subst hm
    simp only [RoomManager.destroyRoom, listGet_set_self, RoomManager.getRoom]
    exact listGet_listDel_self _ _ (nodup_keys_listSet _ _ _ hnr)
  cases hp : listGet st.ptys roomCode with
  | some pid =>
    have hstep : handleDisconnect st roomCode sid =
        ({ manager := RoomManager.destroyRoom
              ⟨listSet st.manager.rooms roomCode (room.removeUser sid)⟩ roomCode,
           ptys := listDel st.ptys roomCode,
           killedLog := st.killedLog ++ [pid] }, [pid]) := by
      simp only [handleDisconnect, hroom, hempty, hp, eq_self_iff_true, if_true]
    rw [hstep]
    refine ⟨hdestroy _ rfl, listGet_listDel_self _ _ hnp, ?_, ?_⟩
    · intro pid2 hp2
      injection hp2 with hpe
      subst hpe
      exact ⟨rfl, rfl⟩
    · intro hnone
      exact absurd hnone (by simp)
  | none =>
    have hstep : handleDisconnect st roomCode sid =
        ({ manager := RoomManager.destroyRoom
              ⟨listSet st.manager.rooms roomCode (room.removeUser sid)⟩ roomCode,
           ptys := st.ptys,
           killedLog := st.killedLog }, []) := by
      simp only [handleDisconnect, hroom, hempty, hp, eq_self_iff_true, if_true]
    rw [hstep]
    refine ⟨hdestroy _ rfl, hp, ?_, fun _ => rfl⟩
    intro pid2 hp2
    exact absurd hp2 (by simp)

/-- Witness for C6: a one-room, one-viewer server; the sole viewer
disconnects, the pty is killed, the room becomes unresolvable. -/
theorem handleDisconnect_last_viewer_witness :
    (handleDisconnect
        ⟨⟨[("cccccc", ⟨"cccccc", some "s1", [("s1", "Solo")]⟩)]⟩, [("cccccc", 9)], []⟩
        "cccccc" "s1").1.manager.getRoom "cccccc" = none
    ∧ (handleDisconnect
        ⟨⟨[("cccccc", ⟨"cccccc", some "s1", [("s1", "Solo")]⟩)]⟩, [("cccccc", 9)], []⟩
        "cccccc" "s1").2 = [9] := by
  have h := handleDisconnect_last_viewer
    ⟨⟨[("cccccc", ⟨"cccccc", some "s1", [("s1", "Solo")]⟩)]⟩, [("cccccc", 9)], []⟩
    "cccccc" "s1" ⟨"cccccc", some "s1", [("s1", "Solo")]⟩
    (by decide) (by decide) (by decide) (by decide)
  exact ⟨h.1, (h.2.2.1 9 (by decide)).1⟩

/-- A concrete server whose single room already holds two viewers (the
capacity limit some variants enforce). -/
def twoViewerState : ServerState :=
  ⟨⟨[("dddddd", ⟨"dddddd", some "s1", [("s1", "A"), ("s2", "B")]⟩)]⟩, [("dddddd", 4)], []⟩

/-- C5 counterexample: the connection handler performs no capacity check.
A third connection to a room that already holds two viewers is admitted and
the room state is mutated, contradicting the claimed at-capacity rejection
with no state change. -/
theorem handleConnection_no_capacity_check :
    (handleConnection twoViewerState (some "dddddd") (some "C") "s3").1 =
      .admitted ["A", "B", "C"]
    ∧ listGet (handleConnection twoViewerState (some "dddddd") (some "C") "s3").2.manager.rooms
        "dddddd" =
      some ⟨"dddddd", some "s1", [("s1", "A"), ("s2", "B"), ("s3", "C")]⟩ := by decide

/-- C5 (amended): admission rejects with a typed `error:room` message
followed by disconnect, and without mutating any state, exactly when the
room code is absent or empty, the display name is absent or empty, or the
referenced room does not exist; in every other case — with no capacity
limit of any kind — the connection is added to the room's user map. -/
theorem handleConnection_admission :
    (∀ st rc dn sid, (falsyStr rc || falsyStr dn) = true →
      handleConnection st rc dn sid = (.rejected "roomCode and displayName required", st))
    ∧ (∀ st code dn sid, code ≠ "" → falsyStr dn = false →
      st.manager.getRoom code = none →
      handleConnection st (some code) dn sid =
        (.rejected ("Room " ++ apos ++ code ++ apos ++ " not found"), st))
    ∧ (∀ st code dn sid room, code ≠ "" → falsyStr dn = false →
      st.manager.getRoom code = some room →
      handleConnection st (some code) dn sid =
        (.admitted (room.addUser sid (dn.getD "")).getUserNames,
         { st with manager := ⟨listSet st.manager.rooms code (room.addUser sid (dn.getD ""))⟩ }))
    ∧ (∀ msg, (Admission.rejected msg).disconnected = true) := by
  refine ⟨?_, ?_, ?_, fun _ => rfl⟩
  · intro st rc dn sid h
    simp only [handleConnection, h, if_true]
  · intro st code dn sid hcode hdn hroom
    have hfr : falsyStr (some code) = false := by
      simp [falsyStr, hcode]
    simp [handleConnection, hfr, hdn, hroom]
  · intro st code dn sid room hcode hdn hroom
    have hfr : falsyStr (some code) = false := by
      simp [falsyStr, hcode]
    simp [handleConnection, hfr, hdn, hroom]

/-- Witness for C5 (amended): concrete rejections for a missing name and an
unknown room (state untouched), and a concrete admission. -/
theorem handleConnection_admission_witness :
    handleConnection twoViewerState (some "dddddd") none "s9" =
      (.rejected "roomCode and displayName required", twoViewerState)
    ∧ handleConnection twoViewerState (some "zzzzzz") (some "Z") "s9" =
      (.rejected ("Room " ++ apos ++ "zzzzzz" ++ apos ++ " not found"), twoViewerState)
    ∧ handleConnection twoViewerState (some "dddddd") (some "C") "s3" =
      (.admitted ["A", "B", "C"],
       { twoViewerState with
          manager := ⟨listSet twoViewerState.manager.rooms "dddddd"
            ((Room.mk "dddddd" (some "s1") [("s1", "A"), ("s2", "B")]).addUser "s3" "C")⟩ }) := by
  refine ⟨?_, ?_, ?_⟩
  · exact handleConnection_admission.1 twoViewerState (some "dddddd") none "s9" (by decide)
  · exact handleConnection_admission.2.1 twoViewerState "zzzzzz" (some "Z") "s9"
      (by decide) (by decide) (by decide)
  · exact handleConnection_admission.2.2.1 twoViewerState "dddddd" (some "C") "s3"
      ⟨"dddddd", some "s1", [("s1", "A"), ("s2", "B")]⟩ (by decide) (by decide) (by decide)

/-- C8: `handleThreadReply` resolves the room through the reverse
`(channel, thread)` mapping and invokes the write callback with the room
code and `text + "\n"` exactly when a room is found and a callback is
registered; an unresolved thread or a missing callback is a silent no-op.
(The hypothesis excludes an empty string having been linked as a room code,
which the JS truthiness test would additionally drop; room codes in this
system are 6 characters.) -/
theorem handleThreadReply_routing :
    ∀ (b : SlackBridge) (c t text : String),
      b.getRoomForThread c t ≠ some "" →
      ((∀ rc, b.getRoomForThread c t = some rc → b.hasWriteCallback = true →
        b.handleThreadReply c t text = some (rc, text ++ "\n"))
      ∧ (b.getRoomForThread c t = none → b.handleThreadReply c t text = none)
      ∧ (b.hasWriteCallback = false → b.handleThreadReply c t text = none)) := by
  intro b c t text hne
  refine ⟨?_, ?_, ?_⟩
  · intro rc hrc hcb
    have hrcne : rc ≠ "" := fun hrc0 => hne (by rw [hrc, hrc0])
    simp only [SlackBridge.handleThreadReply, hrc]
    rw [if_pos ⟨hrcne, hcb⟩]
  · intro hnone
    simp only [SlackBridge.handleThreadReply, hnone]
  · intro hcb
    cases hrc : b.getRoomForThread c t with
    | none => simp only [SlackBridge.handleThreadReply, hrc]
    | some rc =>
      simp only [SlackBridge.handleThreadReply, hrc]
      rw [if_neg (fun hh => by rw [hcb] at hh; exact Bool.false_ne_true hh.2)]

/-- Witness for C8: a bridge with one linked room and a registered callback
forwards a reply with a trailing newline; without a registered callback the
same reply is a no-op. -/
theorem handleThreadReply_routing_witness :
    ((SlackBridge.init.linkRoom "abc123" "C123" "111.222").onWriteReg).handleThreadReply
        "C123" "111.222" "ls -la" = some ("abc123", "ls -la\n")
    ∧ (SlackBridge.init.linkRoom "abc123" "C123" "111.222").handleThreadReply
        "C123" "111.222" "ls -la" = none :=
  ⟨(handleThreadReply_routing ((SlackBridge.init.linkRoom "abc123" "C123" "111.222").onWriteReg)
      "C123" "111.222" "ls -la" (by decide)).1 "abc123" (by decide) (by decide),
   (handleThreadReply_routing (SlackBridge.init.linkRoom "abc123" "C123" "111.222")
      "C123" "111.222" "ls -la" (by decide)).2.2 (by decide)⟩

theorem applyOps_creator (ops : List RoomOp) :
    ∀ (r : Room) (sid : String), r.creatorSocketId = some sid →
      (r.applyOps ops).creatorSocketId = some sid := by
  induction ops with
  | nil => intro r sid h; exact h
  | cons op rest ih =>
    intro r sid h
    cases op with
    | add sid2 name2 =>
      apply ih
      simp only [Room.applyOp, Room.addUser, h]
      rfl
    | remove sid2 =>
      apply ih
      simpa only [Room.applyOp, Room.removeUser] using h

/-- C10: the first `addUser` on a fresh room fixes `creatorSocketId`
permanently — no later join or leave changes it — and a resize is forwarded
exactly when it comes from that first socket id; consequently, once the
creator's socket is no longer a member while others remain, no current
member can resize the terminal. -/
theorem creatorSocketId_immutable_resize_gated :
    (∀ code sid name ops,
      ((((Room.new code).addUser sid name).applyOps ops)).creatorSocketId = some sid)
    ∧ (∀ code sid name ops s,
      resizeForwarded (((Room.new code).addUser sid name).applyOps ops) s = true ↔ s = sid)
    ∧ (∀ code sid name ops,
      sid ∉ ((((Room.new code).addUser sid name).applyOps ops)).users.map Prod.fst →
      ∀ s ∈ ((((Room.new code).addUser sid name).applyOps ops)).users.map Prod.fst,
        resizeForwarded (((Room.new code).addUser sid name).applyOps ops) s = false) := by
  have hcreator : ∀ code sid name ops,
      ((((Room.new code).addUser sid name).applyOps ops)).creatorSocketId = some sid := by
    intro code sid name ops
    apply applyOps_creator
    rfl
  refine ⟨hcreator, ?_, ?_⟩
  · intro code sid name ops s
    rw [resizeForwarded, hcreator]
    constructor
    · intro hb
      have hb2 := eq_of_beq hb
      injection hb2 with hb3
      exact hb3.symm
    · intro hs
      subst hs
      exact beq_self_eq_true _
  · intro code sid name ops hgone s hs
    rw [resizeForwarded, hcreator]
    simp only [beq_eq_false_iff_ne, ne_eq, Option.some.injEq]
    intro hss
    subst hss
    exact hgone hs

/-- Witness for C10: in a concrete room where the creator joined first,
then a guest joined and the creator left, the guest (sole remaining member)
cannot resize, and neither can the departed creator-id check succeed for
any member. -/
theorem creatorSocketId_immutable_resize_gated_witness :
    ((((Room.new "eeeeee").addUser "s1" "Creator").applyOps
        [.add "s2" "Guest", .remove "s1"])).creatorSocketId = some "s1"
    ∧ resizeForwarded (((Room.new "eeeeee").addUser "s1" "Creator").applyOps
        [.add "s2" "Guest", .remove "s1"]) "s2" = false :=
  ⟨creatorSocketId_immutable_resize_gated.1 "eeeeee" "s1" "Creator"
      [.add "s2" "Guest", .remove "s1"],
   creatorSocketId_immutable_resize_gated.2.2 "eeeeee" "s1" "Creator"
      [.add "s2" "Guest", .remove "s1"] (by decide) "s2" (by decide)⟩

/-- A tunnel that has started successfully and cached its URL. -/
def runningTunnel : TunnelState :=
  (TunnelState.init.start (.urlFound "https://x.trycloudflare.com")).1

/-- C9 counterexample: the already-running rejection does not reset the
state — the existing tunnel keeps running with its cached URL — so "in
every rejection case the state (url, isRunning) is reset" fails. -/
theorem tunnel_alreadyRunning_no_reset :
    runningTunnel.start .timedOut = (runningTunnel, .error .alreadyRunning)
    ∧ runningTunnel.isRunning = true
    ∧ runningTunnel.url = some "https://x.trycloudflare.com" := by decide

/-- C9 (amended): `start` rejects when a tunnel is already running, leaving
the running tunnel's state untouched; otherwise it rejects with a
distinguishable not-installed error on ENOENT, propagates other spawn error
codes unchanged, rejects carrying the exit code when the helper closes
before a URL, rejects with a timeout error when no URL appears in time, and
in each of these non-running rejection cases the state (url, isRunning) is
reset.  `stop()` is idempotent, always leaves `isRunning` false, and clears
the cached URL from every state in which a helper is held (the only states
with a cached URL). -/
theorem tunnelManager_start_stop :
    (∀ (tm : TunnelState) ev, tm.isRunning = true →
      tm.start ev = (tm, .error .alreadyRunning))
    ∧ (∀ tm : TunnelState, tm.isRunning = false →
      tm.start (.spawnErr "ENOENT") = (⟨none, none⟩, .error .notInstalled))
    ∧ (∀ (tm : TunnelState) c, tm.isRunning = false → c ≠ "ENOENT" →
      tm.start (.spawnErr c) = (⟨none, none⟩, .error (.spawnFailure c)))
    ∧ (∀ (tm : TunnelState) ec, tm.isRunning = false →
      tm.start (.earlyClose ec) = (⟨none, none⟩, .error (.earlyExit ec)))
    ∧ (∀ tm : TunnelState, tm.isRunning = false →
      tm.start .timedOut = (⟨none, none⟩, .error .timeout))
    ∧ (∀ c, TunnelErr.notInstalled ≠ TunnelErr.spawnFailure c)
    ∧ (∀ ec, (TunnelErr.earlyExit ec).message =
        "cloudflared exited with code " ++ toString ec ++ " before producing a URL")
    ∧ (∀ tm : TunnelState, tm.stop.stop = tm.stop ∧ tm.stop.isRunning = false)
    ∧ (∀ tm : TunnelState, tm.process ≠ none → tm.stop.url = none) := by
  refine ⟨?_, ?_, ?_, ?_, ?_, ?_, fun _ => rfl, ?_, ?_⟩
  · intro tm ev h
    simp only [TunnelState.start, h, if_true]
  · intro tm h
    simp only [TunnelState.start, h, Bool.false_eq_true, if_false]
    rfl
  · intro tm c h hc
    simp only [TunnelState.start, h, Bool.false_eq_true, if_false]
    rw [if_neg hc]
  · intro tm ec h
    simp only [TunnelState.start, h, Bool.false_eq_true, if_false]
  · intro tm h
    simp only [TunnelState.start, h, Bool.false_eq_true, if_false]
    rfl
  · intro c h
    cases h
  · intro tm
    cases hp : tm.process with
    | some killed =>
      constructor
      · simp only [TunnelState.stop, hp]
      · simp only [TunnelState.stop, hp, TunnelState.isRunning]
    | none =>
      constructor
      · simp only [TunnelState.stop, hp]
      · simp only [TunnelState.stop, hp, TunnelState.isRunning]
  · intro tm hne
    cases hp : tm.process with
    | some killed => simp only [TunnelState.stop, hp]
    | none => exact absurd hp hne

/-- Witness for C9 (amended): concrete non-running starts reject and reset
the state; the already-running rejection leaves the tunnel untouched;
double stop of the running tunnel stays stopped with no URL. -/
theorem tunnelManager_start_stop_witness :
    TunnelState.init.start (.spawnErr "ENOENT") = (⟨none, none⟩, .error .notInstalled)
    ∧ TunnelState.init.start (.spawnErr "EACCES") =
        (⟨none, none⟩, .error (.spawnFailure "EACCES"))
    ∧ TunnelState.init.start (.earlyClose 1) = (⟨none, none⟩, .error (.earlyExit 1))
    ∧ TunnelState.init.start .timedOut = (⟨none, none⟩, .error .timeout)
    ∧ runningTunnel.start .timedOut = (runningTunnel, .error .alreadyRunning)
    ∧ runningTunnel.stop.stop = runningTunnel.stop
    ∧ runningTunnel.stop.url = none :=
  ⟨tunnelManager_start_stop.2.1 TunnelState.init (by decide),
   tunnelManager_start_stop.2.2.1 TunnelState.init "EACCES" (by decide) (by decide),
   tunnelManager_start_stop.2.2.2.1 TunnelState.init 1 (by decide),
   tunnelManager_start_stop.2.2.2.2.1 TunnelState.init (by decide),
   tunnelManager_start_stop.1 runningTunnel .timedOut (by decide),
   (tunnelManager_start_stop.2.2.2.2.2.2.2.1 runningTunnel).1,
   tunnelManager_start_stop.2.2.2.2.2.2.2.2 runningTunnel (by decide)⟩

theorem tryAnsiMatch_none (c : Char) (rest : List Char) (h : (c == escChar) = false) :
    tryAnsiMatch (c :: rest) = none := by
  cases rest with
  | nil => rfl
  | cons c2 r2 => simp only [tryAnsiMatch, h, Bool.false_eq_true, if_false]

theorem stripAnsiAux_noEsc :
    ∀ (l : List Char) (fuel : Nat), (∀ c ∈ l, (c == escChar) = false) →
      l.length ≤ fuel → stripAnsiAux fuel l = l := by
  intro l
  induction l with
  | nil =>
    intro fuel _ _
    cases fuel with
    | zero => rfl
    | succ f => rfl
  | cons c rest ih =>
    intro fuel h hlen
    cases fuel with
    | zero => simp at hlen
    | succ f =>
      have hc := h c (by simp)
      simp only [stripAnsiAux, tryAnsiMatch_none c rest hc]
      rw [ih f (fun x hx => h x (by simp [hx])) (by simp at hlen; omega)]

theorem stripAnsi_noEsc (s : String) (h : hasEsc s = false) : stripAnsi s = s := by
  obtain ⟨data⟩ := s
  have h2 : ∀ c ∈ data, (c == escChar) = false := by
    intro c hc
    have h3 : ¬((c == escChar) = true) := by
      intro hb
      have h4 : hasEsc ⟨data⟩ = true := by
        unfold hasEsc
        exact List.any_eq_true.mpr ⟨c, hc, hb⟩
      rw [h] at h4
      cases h4
    cases hcc : (c == escChar) with
    | false => rfl
    | true => exact absurd hcc h3
  unfold stripAnsi
  rw [stripAnsiAux_noEsc data data.length h2 (le_refl _)]

/-- `flush()`'s `onFlush` invocation, characterised through the stripped
buffer. -/
theorem flushStep_snd (ob : OutputBuffer) :
    ob.flushStep.2 =
      if stripAnsi ob.buffer = "" then none else some (stripAnsi ob.buffer) := by
  simp only [OutputBuffer.flushStep]
  by_cases h : stripAnsi ob.buffer = ""
  · rw [h]
    decide
  · rw [if_neg h, if_pos]
    rw [string_length_data]
    exact List.length_pos.mpr ((string_ne_empty_iff _).mp h)

theorem settle_flushes (buf : String) (dl : Nat) (fl : List String) :
    (OBRun.mk ⟨buf, some dl⟩ fl).settle.flushes =
      fl ++ (if stripAnsi buf = "" then [] else [stripAnsi buf]) := by
  show (⟨(OutputBuffer.mk buf (some dl)).flushStep.1,
      fl ++ (OutputBuffer.mk buf (some dl)).flushStep.2.toList⟩ : OBRun).flushes = _
  have hsnd := flushStep_snd (OutputBuffer.mk buf (some dl))
  by_cases h : stripAnsi buf = ""
  · rw [if_pos h]
    show fl ++ ((OutputBuffer.mk buf (some dl)).flushStep.2).toList = fl ++ []
    rw [hsnd]
    simp only [OutputBuffer.buffer] at *
    rw [if_pos h]
    rfl
  · rw [if_neg h]
    show fl ++ ((OutputBuffer.mk buf (some dl)).flushStep.2).toList = fl ++ [stripAnsi buf]
    rw [hsnd]
    simp only [OutputBuffer.buffer] at *
    rw [if_neg h]
    rfl

/-- The debounce induction: starting with a pending timer one full delay
after `prev` and a buffer `buf`, a burst of appends fires no flush and
leaves the concatenated buffer with the timer one full delay after the last
event. -/
theorem runAppends_burst (delay : Nat) :
    ∀ (events : List (Nat × String)) (prev : Nat) (buf : String) (fl : List String),
      burstFrom delay prev events = true →
      OBRun.runAppends delay ⟨⟨buf, some (prev + delay)⟩, fl⟩ events =
        ⟨⟨buf ++ strConcat (events.map Prod.snd), some (lastTime prev events + delay)⟩, fl⟩ := by
  intro events
  induction events with
  | nil =>
    intro prev buf fl _
    simp only [OBRun.runAppends, lastTime, List.map_nil, strConcat]
    rw [string_append_empty]
  | cons ev rest ih =>
    obtain ⟨t, d⟩ := ev
    intro prev buf fl hb
    simp only [burstFrom, Bool.and_eq_true, decide_eq_true_eq] at hb
    obtain ⟨⟨h1, h2⟩, h3⟩ := hb
    have happ : (⟨⟨buf, some (prev + delay)⟩, fl⟩ : OBRun).appendAt delay t d =
        ⟨⟨buf ++ d, some (t + delay)⟩, fl⟩ := by
      simp only [OBRun.appendAt, OBRun.fireIfDue]
      rw [if_neg (by omega)]
      rfl
    simp only [OBRun.runAppends]
    rw [happ, ih t (buf ++ d) fl h3]
    simp only [lastTime, List.map_cons, strConcat]
    rw [string_append_assoc]

/-- C4: raw bytes accumulate unstripped in the buffer at `append` time;
stripping happens once, at flush, and the sink callback fires exactly when
the stripped buffer is non-empty, receiving the stripped text; a buffer of
only CSI erase/home sequences strips to empty and produces no callback. -/
theorem outputBuffer_strip_at_flush :
    (∀ delay (ob : OutputBuffer) t d, (ob.appendStep delay t d).buffer = ob.buffer ++ d)
    ∧ (∀ (ob : OutputBuffer) txt,
        ob.flushStep.2 = some txt ↔ txt = stripAnsi ob.buffer ∧ stripAnsi ob.buffer ≠ "")
    ∧ (∀ ob : OutputBuffer, ob.flushStep.2 = none ↔ stripAnsi ob.buffer = "")
    ∧ (∀ ob : OutputBuffer, ob.flushStep.1 = ⟨"", none⟩)
    ∧ stripAnsi "\x1b[2J\x1b[H" = ""
    ∧ (OutputBuffer.mk "\x1b[2J\x1b[H" none).flushStep.2 = none
    ∧ (OutputBuffer.start.appendStep 80 0 "\x1b[2J\x1b[H").buffer = "\x1b[2J\x1b[H" := by
  refine ⟨fun _ _ _ _ => rfl, ?_, ?_, fun _ => rfl, by decide, by decide, by decide⟩
  · intro ob txt
    rw [flushStep_snd]
    by_cases h : stripAnsi ob.buffer = ""
    · rw [if_pos h]
      constructor
      · intro hn; cases hn
      · intro hp; exact absurd h hp.2
    · rw [if_neg h]
      constructor
      · intro hs
        injection hs with hs2
        exact ⟨hs2.symm, h⟩
      · intro hp
        rw [hp.1]
  · intro ob
    rw [flushStep_snd]
    by_cases h : stripAnsi ob.buffer = ""
    · rw [if_pos h]
      exact ⟨fun _ => h, fun _ => rfl⟩
    · rw [if_neg h]
      exact Iff.intro (fun hs => by cases hs) (fun hs => absurd hs h)

/-- C3: every `append` cancels the pending flush timer and schedules a new
one a full delay later, so a burst of appends spaced closer than the delay
produces no flush during the burst and exactly one flush — of the
(stripped) concatenation of all appended chunks — after the quiet period;
in particular `"a"`, `"b"`, `"c"` appended 40 ms apart under an 80 ms delay
flush exactly once as `"abc"`. -/
theorem outputBuffer_debounce :
    (∀ delay (ob : OutputBuffer) t d, (ob.appendStep delay t d).timer = some (t + delay))
    ∧ (∀ delay t0 d0 events, burstFrom delay t0 events = true →
      ((OBRun.fresh.appendAt delay t0 d0).runAppends delay events).flushes = []
      ∧ ((OBRun.fresh.appendAt delay t0 d0).runAppends delay events).settle.flushes =
          (if stripAnsi (strConcat (d0 :: events.map Prod.snd)) = "" then []
           else [stripAnsi (strConcat (d0 :: events.map Prod.snd))]))
    ∧ (∀ delay t0 d0 events, burstFrom delay t0 events = true →
      hasEsc (strConcat (d0 :: events.map Prod.snd)) = false →
      strConcat (d0 :: events.map Prod.snd) ≠ "" →
      ((OBRun.fresh.appendAt delay t0 d0).runAppends delay events).settle.flushes =
        [strConcat (d0 :: events.map Prod.snd)])
    ∧ (((OBRun.fresh.appendAt 80 0 "a").runAppends 80 [(40, "b"), (80, "c")]).flushes = []
      ∧ ((OBRun.fresh.appendAt 80 0 "a").runAppends 80
          [(40, "b"), (80, "c")]).settle.flushes = ["abc"]) := by
  have hfresh : ∀ delay t0 d0, OBRun.fresh.appendAt delay t0 d0 =
      ⟨⟨d0, some (t0 + delay)⟩, ([] : List String)⟩ := by
    intro delay t0 d0
    simp only [OBRun.appendAt, OBRun.fireIfDue, OBRun.fresh, OutputBuffer.start,
      OutputBuffer.appendStep]
    rw [string_empty_append]
  have hmain : ∀ delay t0 d0 events, burstFrom delay t0 events = true →
      ((OBRun.fresh.appendAt delay t0 d0).runAppends delay events).flushes = []
      ∧ ((OBRun.fresh.appendAt delay t0 d0).runAppends delay events).settle.flushes =
          (if stripAnsi (strConcat (d0 :: events.map Prod.snd)) = "" then []
           else [stripAnsi (strConcat (d0 :: events.map Prod.snd))]) := by
    intro delay t0 d0 events hb
    rw [hfresh, runAppends_burst delay events t0 d0 [] hb]
    refine ⟨rfl, ?_⟩
    rw [settle_flushes]
    simp only [strConcat, List.nil_append]
  refine ⟨fun _ _ _ _ => rfl, hmain, ?_, ?_⟩
  · intro delay t0 d0 events hb hesc hne
    rw [(hmain delay t0 d0 events hb).2, stripAnsi_noEsc _ hesc, if_neg hne]
  · exact hmain 80 0 "a" [(40, "b"), (80, "c")] (by decide)
    |>.imp id (fun h => by rw [h]; decide)

/-- Witness for C3 at a concrete burst: two appends 40 ms apart under an
80 ms delay flush once with the concatenation. -/
theorem outputBuffer_debounce_witness :
    ((OBRun.fresh.appendAt 80 100 "x").runAppends 80 [(140, "y")]).flushes = []
    ∧ ((OBRun.fresh.appendAt 80 100 "x").runAppends 80 [(140, "y")]).settle.flushes =
      ["xy"] :=
  ⟨(outputBuffer_debounce.2.1 80 100 "x" [(140, "y")] (by decide)).1,
   outputBuffer_debounce.2.2.1 80 100 "x" [(140, "y")] (by decide) (by decide) (by decide)⟩

end CodeCompanion
